import Mathlib

/-!
Verification of the color-cloud sprite-sheet renderer
(`render_color_cloud.py`).

The frame synthesizer (`render_frame_vectorized`) is embedded over the
real numbers: each pixel's pre-quantization color and alpha are
closed-form trigonometric expressions of the normalized pixel
coordinates and the loop phase, and the stored 8-bit channels are
floor-truncations of the clipped real values.  The sheet assembler
(`create_sprite_sheet`) is embedded as a fold of rectangle pastes over
a list of frames, starting from a fully transparent canvas.
-/

namespace ColorCloud

/-- `WIDTH = 512` from the script header. -/
def WIDTH : ℕ := 512

/-- `HEIGHT = 512` from the script header. -/
def HEIGHT : ℕ := 512

/-- `FPS = 12` from the script header. -/
def FPS : ℕ := 12

/-- `DURATION = 10` (seconds) from the script header. -/
def DURATION : ℕ := 10

/-- `TOTAL_FRAMES = FPS * DURATION`. -/
def TOTAL_FRAMES : ℕ := FPS * DURATION

open Real

/-- Normalized horizontal coordinate: `uv_x = x / WIDTH`. -/
noncomputable def uv_x (x : ℕ) : ℝ := (x : ℝ) / WIDTH

/-- Normalized vertical coordinate, flipped for a bottom-left origin:
`uv_y = 1.0 - y / HEIGHT`. -/
noncomputable def uv_y (y : ℕ) : ℝ := 1 - (y : ℝ) / HEIGHT

/-- Loop phase: `time = (t / loop_duration) * (2.0 * pi / 0.3)`. -/
noncomputable def timeOf (t loop_duration : ℝ) : ℝ :=
  t / loop_duration * (2 * π / 0.3)

/-- First noise field: `n1 = sin(uv_x*3.0 + time) * cos(uv_y*2.0 - time*0.7)`. -/
noncomputable def n1 (ux uy tm : ℝ) : ℝ :=
  sin (ux * 3 + tm) * cos (uy * 2 - tm * 0.7)

/-- Second noise field: `n2 = cos(uv_x*2.5 - time*0.5) * sin(uv_y*3.5 + time)`. -/
noncomputable def n2 (ux uy tm : ℝ) : ℝ :=
  cos (ux * 2.5 - tm * 0.5) * sin (uy * 3.5 + tm)

/-- Third noise field: `n3 = sin((uv_x + uv_y)*2.0 + time*0.8)`. -/
noncomputable def n3 (ux uy tm : ℝ) : ℝ :=
  sin ((ux + uy) * 2 + tm * 0.8)

/-- Base color `c1` (pink): `[1.0, 0.3, 0.5]`. -/
noncomputable def c1 : Fin 3 → ℝ := ![1.0, 0.3, 0.5]

/-- Base color `c2` (blue): `[0.3, 0.5, 1.0]`. -/
noncomputable def c2 : Fin 3 → ℝ := ![0.3, 0.5, 1.0]

/-- Base color `c3` (cyan/green): `[0.2, 0.9, 0.6]`. -/
noncomputable def c3 : Fin 3 → ℝ := ![0.2, 0.9, 0.6]

/-- Base color `c4` (yellow): `[1.0, 0.8, 0.2]`. -/
noncomputable def c4 : Fin 3 → ℝ := ![1.0, 0.8, 0.2]

/-- `mix1 = n1 * 0.5 + 0.5`. -/
noncomputable def mix1 (ux uy tm : ℝ) : ℝ := n1 ux uy tm * 0.5 + 0.5

/-- `mix2 = n2 * 0.5 + 0.5`. -/
noncomputable def mix2 (ux uy tm : ℝ) : ℝ := n2 ux uy tm * 0.5 + 0.5

/-- `mix3 = n3 * 0.3 + 0.3`. -/
noncomputable def mix3 (ux uy tm : ℝ) : ℝ := n3 ux uy tm * 0.3 + 0.3

/-- One blending statement of the script: `color = color * (1 - mix) + c * mix`. -/
noncomputable def blendStep (prev c m : ℝ) : ℝ := prev * (1 - m) + c * m

/-- Channel `ch` of the pre-quantization color: the three sequential
blending statements applied to the four base colors. -/
noncomputable def colorCh (ch : Fin 3) (ux uy tm : ℝ) : ℝ :=
  blendStep
    (blendStep
      (blendStep (c1 ch) (c2 ch) (mix1 ux uy tm))
      (c3 ch) (mix2 ux uy tm))
    (c4 ch) (mix3 ux uy tm)

/-- Radial distance from center:
`dist = sqrt((uv_x-0.5)^2 + (uv_y-0.5)^2) * 2.0`. -/
noncomputable def distOf (ux uy : ℝ) : ℝ :=
  Real.sqrt ((ux - 0.5) * (ux - 0.5) + (uy - 0.5) * (uy - 0.5)) * 2

/-- `np.clip(x, lo, hi)`. -/
noncomputable def clip (x lo hi : ℝ) : ℝ := min (max x lo) hi

/-- The cubic `u * u * (3 - 2 * u)` applied both inside `smoothstep_np`
and as the extra smoothing pass on alpha. -/
noncomputable def hermite (u : ℝ) : ℝ := u * u * (3 - 2 * u)

/-- `smoothstep_np(edge0, edge1, x)`: GLSL smoothstep,
`t = clip((x - edge0) / (edge1 - edge0), 0, 1); t*t*(3 - 2t)`. -/
noncomputable def smoothstep_np (edge0 edge1 x : ℝ) : ℝ :=
  hermite (clip ((x - edge0) / (edge1 - edge0)) 0 1)

/-- The alpha value of a pixel at distance `d`:
`alpha = 1 - smoothstep(0, 0.85, dist)` followed by the extra smoothing
`alpha = alpha * alpha * (3 - 2*alpha)`. -/
noncomputable def alphaOf (d : ℝ) : ℝ :=
  hermite (1 - smoothstep_np 0 0.85 d)

/-- Channel quantization as applied to the three color channels:
`(np.clip(c, 0, 1) * 255).astype(np.uint8)`; the value is nonnegative,
so the `uint8`-cast truncation is an integer floor. -/
noncomputable def quantize (c : ℝ) : ℤ := ⌊clip c 0 1 * 255⌋

/-- One pixel of `render_frame_vectorized(t, loop_duration)`: the RGB
channels are clipped, scaled and truncated; the alpha channel is scaled
and truncated with no clip, exactly as in the source. -/
noncomputable def render_frame_vectorized (t loop_duration : ℝ) (x y : ℕ) :
    ℤ × ℤ × ℤ × ℤ :=
  (quantize (colorCh 0 (uv_x x) (uv_y y) (timeOf t loop_duration)),
   quantize (colorCh 1 (uv_x x) (uv_y y) (timeOf t loop_duration)),
   quantize (colorCh 2 (uv_x x) (uv_y y) (timeOf t loop_duration)),
   ⌊alphaOf (distOf (uv_x x) (uv_y y)) * 255⌋)

/-- The frame rendered for frame index `i` in `main`:
`t = i / FPS`, `loop_duration = DURATION`. -/
noncomputable def mainFrame (i : ℕ) : ℕ → ℕ → ℤ × ℤ × ℤ × ℤ :=
  render_frame_vectorized ((i : ℝ) / (FPS : ℝ)) (DURATION : ℝ)

/-! ## Sheet assembler -/

/-- An RGBA pixel of a rendered frame (each channel an 8-bit value). -/
def RGBA := ℕ × ℕ × ℕ × ℕ

/-- A frame, viewed as its pixel lookup `(x, y) ↦ RGBA`. -/
def Frame := ℕ → ℕ → RGBA

/-- A sheet canvas, viewed as its pixel lookup. -/
def SheetFun := ℕ → ℕ → RGBA

/-- The fully transparent canvas `Image.new('RGBA', _, (0, 0, 0, 0))`. -/
def blankSheet : SheetFun := fun _ _ => (0, 0, 0, 0)

/-- `sheet.paste(f, (x0, y0))`: overwrite the `WIDTH × HEIGHT` rectangle
at offset `(x0, y0)` with the pixels of `f`. -/
def paste (s : SheetFun) (f : Frame) (x0 y0 : ℕ) : SheetFun :=
  fun px py =>
    if x0 ≤ px ∧ px < x0 + WIDTH ∧ y0 ≤ py ∧ py < y0 + HEIGHT then
      f (px - x0) (py - y0)
    else s px py

/-- The paste loop of `create_sprite_sheet`, pasting the frames in
sequence order starting at global frame index `i`:
`row = i // cols`, `col = i % cols`, offset `(col*WIDTH, row*HEIGHT)`. -/
def pasteFrom (cols : ℕ) : ℕ → List Frame → SheetFun → SheetFun
  | _, [], s => s
  | i, f :: fs, s =>
      pasteFrom cols (i + 1) fs (paste s f (i % cols * WIDTH) (i / cols * HEIGHT))

/-- `create_sprite_sheet(frames, cols)` as a pixel lookup: the paste
loop applied to the transparent canvas. -/
def create_sprite_sheet (frames : List Frame) (cols : ℕ) : SheetFun :=
  pasteFrom cols 0 frames blankSheet

/-- `rows = math.ceil(len(frames) / cols)` (exact rational division,
then ceiling). -/
def rowsOf (n cols : ℕ) : ℕ := (⌈(n : ℚ) / (cols : ℚ)⌉).toNat

/-- `sheet_width = WIDTH * cols`. -/
def sheet_width (cols : ℕ) : ℕ := WIDTH * cols

/-- `sheet_height = HEIGHT * rows`. -/
def sheet_height (n cols : ℕ) : ℕ := HEIGHT * rowsOf n cols

/-! ## Python-semantics wrappers for the missing precondition checks

Scalar division by zero raises `ZeroDivisionError` in Python; apart
from that, neither function validates its arguments. -/

/-- `render_frame_vectorized` with Python error semantics: the only
failure is the division `t / loop_duration` when `loop_duration = 0`;
no precondition is checked. -/
noncomputable def render_frame_checked (t loop_duration : ℝ) :
    Except String (ℕ → ℕ → ℤ × ℤ × ℤ × ℤ) :=
  if loop_duration = 0 then Except.error "ZeroDivisionError"
  else Except.ok (render_frame_vectorized t loop_duration)

/-- `create_sprite_sheet` with Python error semantics: the only failure
is the division `len(frames) / cols` when `cols = 0`; no precondition
is checked. -/
def create_sprite_sheet_checked (frames : List Frame) (cols : ℕ) :
    Except String SheetFun :=
  if cols = 0 then Except.error "ZeroDivisionError"
  else Except.ok (create_sprite_sheet frames cols)

/-- The tile rectangle of global frame index `j` (used only in proofs):
the pixel `(px, py)` lies in the `WIDTH × HEIGHT` rectangle at offset
`(j % cols * WIDTH, j / cols * HEIGHT)`. -/
def inRect (cols j px py : ℕ) : Prop :=
  j % cols * WIDTH ≤ px ∧ px < j % cols * WIDTH + WIDTH ∧
  j / cols * HEIGHT ≤ py ∧ py < j / cols * HEIGHT + HEIGHT

/-! ## Spec-side blend description (for the formula-fidelity claim)

The spec describes the blend as three sequential linear interpolations
`lerp` of four fixed base colors driven by remapped noise fields; these
definitions follow the spec's wording and are compared against the
source-side `colorCh` above. -/

/-- Modelled from the spec wording: `lerp(a, b, m) = a + (b - a) * m`. -/
noncomputable def spec_lerp (a b m : ℝ) : ℝ := a + (b - a) * m

/-- Spec-side noise field `n1 = sin(uv_x*3.0 + time) * cos(uv_y*2.0 - time*0.7)`. -/
noncomputable def spec_n1 (ux uy tm : ℝ) : ℝ :=
  sin (ux * 3 + tm) * cos (uy * 2 - tm * 0.7)

/-- Spec-side noise field `n2 = cos(uv_x*2.5 - time*0.5) * sin(uv_y*3.5 + time)`. -/
noncomputable def spec_n2 (ux uy tm : ℝ) : ℝ :=
  cos (ux * 2.5 - tm * 0.5) * sin (uy * 3.5 + tm)

/-- Spec-side noise field `n3 = sin((uv_x+uv_y)*2.0 + time*0.8)`. -/
noncomputable def spec_n3 (ux uy tm : ℝ) : ℝ :=
  sin ((ux + uy) * 2 + tm * 0.8)

/-- Spec-side `mix1 = n1*0.5 + 0.5`. -/
noncomputable def spec_mix1 (ux uy tm : ℝ) : ℝ := spec_n1 ux uy tm * 0.5 + 0.5

/-- Spec-side `mix2 = n2*0.5 + 0.5`. -/
noncomputable def spec_mix2 (ux uy tm : ℝ) : ℝ := spec_n2 ux uy tm * 0.5 + 0.5

/-- Spec-side `mix3 = n3*0.3 + 0.3`. -/
noncomputable def spec_mix3 (ux uy tm : ℝ) : ℝ := spec_n3 ux uy tm * 0.3 + 0.3

/-- Spec-side base color `c1 = (1.0, 0.3, 0.5)`. -/
noncomputable def spec_c1 : Fin 3 → ℝ := ![1.0, 0.3, 0.5]

/-- Spec-side base color `c2 = (0.3, 0.5, 1.0)`. -/
noncomputable def spec_c2 : Fin 3 → ℝ := ![0.3, 0.5, 1.0]

/-- Spec-side base color `c3 = (0.2, 0.9, 0.6)`. -/
noncomputable def spec_c3 : Fin 3 → ℝ := ![0.2, 0.9, 0.6]

/-- Spec-side base color `c4 = (1.0, 0.8, 0.2)`. -/
noncomputable def spec_c4 : Fin 3 → ℝ := ![1.0, 0.8, 0.2]

/-- Spec-side color: `lerp(lerp(lerp(c1, c2, mix1), c3, mix2), c4, mix3)`
with no clamping of the mix factors. -/
noncomputable def spec_color (ch : Fin 3) (ux uy tm : ℝ) : ℝ :=
  spec_lerp
    (spec_lerp
      (spec_lerp (spec_c1 ch) (spec_c2 ch) (spec_mix1 ux uy tm))
      (spec_c3 ch) (spec_mix2 ux uy tm))
    (spec_c4 ch) (spec_mix3 ux uy tm)

end ColorCloud

namespace ColorCloud

/-! ## Helper lemmas: clipping, the hermite cubic, smoothstep, alpha -/

lemma clip01_nonneg (x : ℝ) : 0 ≤ clip x 0 1 :=
  le_min (le_max_right x 0) zero_le_one

lemma clip01_le_one (x : ℝ) : clip x 0 1 ≤ 1 :=
  min_le_right _ _

lemma clip01_mono {x y : ℝ} (h : x ≤ y) : clip x 0 1 ≤ clip y 0 1 :=
  min_le_min (max_le_max h le_rfl) le_rfl

lemma clip01_id {x : ℝ} (h0 : 0 ≤ x) (h1 : x ≤ 1) : clip x 0 1 = x := by
  rw [clip, max_eq_left h0, min_eq_left h1]

lemma hermite_mono {a b : ℝ} (ha : 0 ≤ a) (hab : a ≤ b) (hb : b ≤ 1) :
    hermite a ≤ hermite b := by
  have hb0 : 0 ≤ b := le_trans ha hab
  have hD : 0 ≤ b - a := sub_nonneg.2 hab
  have h1a : 0 ≤ 1 - a := by linarith
  have h2 : 0 ≤ 1 - b := sub_nonneg.2 hb
  simp only [hermite]
  nlinarith [mul_nonneg hD (mul_nonneg ha h1a), mul_nonneg hD (mul_nonneg hb0 h2),
    mul_nonneg hD (mul_nonneg ha h2), mul_nonneg hD (mul_nonneg hb0 h1a)]

lemma hermite_mem {a : ℝ} (h0 : 0 ≤ a) (h1 : a ≤ 1) :
    0 ≤ hermite a ∧ hermite a ≤ 1 := by
  constructor
  · exact mul_nonneg (mul_nonneg h0 h0) (by linarith)
  · simp only [hermite]
    nlinarith [mul_nonneg (sq_nonneg (1 - a)) (by linarith : (0:ℝ) ≤ 1 + 2 * a)]

lemma hermite_one : hermite 1 = 1 := by norm_num [hermite]

lemma ss_mem (d : ℝ) :
    0 ≤ smoothstep_np 0 0.85 d ∧ smoothstep_np 0 0.85 d ≤ 1 := by
  unfold smoothstep_np
  exact hermite_mem (clip01_nonneg _) (clip01_le_one _)

lemma ss_mono {d1 d2 : ℝ} (h : d1 ≤ d2) :
    smoothstep_np 0 0.85 d1 ≤ smoothstep_np 0 0.85 d2 := by
  unfold smoothstep_np
  apply hermite_mono (clip01_nonneg _) _ (clip01_le_one _)
  apply clip01_mono
  exact (div_le_div_right (by norm_num)).2 (by linarith)

lemma alphaOf_mem (d : ℝ) : 0 ≤ alphaOf d ∧ alphaOf d ≤ 1 := by
  unfold alphaOf
  have h := ss_mem d
  exact hermite_mem (by linarith [h.2]) (by linarith [h.1])

lemma alphaOf_anti {d1 d2 : ℝ} (h : d1 ≤ d2) : alphaOf d2 ≤ alphaOf d1 := by
  unfold alphaOf
  have h1 := ss_mem d1
  have h2 := ss_mem d2
  exact hermite_mono (by linarith [h2.2]) (by linarith [ss_mono h]) (by linarith [h1.1])

lemma alphaOf_zero : alphaOf 0 = 1 := by
  have hclip : clip ((0 - 0) / (0.85 - 0)) 0 1 = (0:ℝ) := by
    rw [clip]
    norm_num
  rw [alphaOf, smoothstep_np, hclip]
  norm_num [hermite]

lemma alphaOf_of_one_le {d : ℝ} (h : 1 ≤ d) : alphaOf d = 0 := by
  have hclip : clip ((d - 0) / (0.85 - 0)) 0 1 = 1 := by
    have h1 : (1:ℝ) ≤ (d - 0) / (0.85 - 0) := by
      rw [le_div_iff (by norm_num)]
      linarith
    rw [clip, max_eq_left (by linarith), min_eq_right h1]
  rw [alphaOf, smoothstep_np, hclip, hermite_one]
  norm_num [hermite]

lemma quantize_nonneg (c : ℝ) : 0 ≤ quantize c :=
  Int.floor_nonneg.2 (mul_nonneg (clip01_nonneg c) (by norm_num))

lemma quantize_le (c : ℝ) : quantize c ≤ 255 := by
  rw [quantize]
  have h : clip c 0 1 * 255 ≤ 255 := by nlinarith [clip01_le_one c]
  calc ⌊clip c 0 1 * 255⌋ ≤ ⌊(255:ℝ)⌋ := Int.floor_le_floor h
    _ = 255 := by norm_num

end ColorCloud

namespace ColorCloud

open Real

/-- C2: Output quantization and range: for every frame time with
`loopDuration > 0` and every pixel, each of the four stored channels
equals the real-valued channel clamped to `[0,1]`, scaled by 255 and
truncated (floor of a nonnegative value), and every stored channel lies
in `[0,255]`, the unclipped alpha channel included. -/
theorem output_quantization (t L : ℝ) (hL : 0 < L) (x y : ℕ) :
    render_frame_vectorized t L x y =
      (quantize (colorCh 0 (uv_x x) (uv_y y) (timeOf t L)),
       quantize (colorCh 1 (uv_x x) (uv_y y) (timeOf t L)),
       quantize (colorCh 2 (uv_x x) (uv_y y) (timeOf t L)),
       quantize (alphaOf (distOf (uv_x x) (uv_y y)))) ∧
    (0 ≤ (render_frame_vectorized t L x y).1 ∧
      (render_frame_vectorized t L x y).1 ≤ 255) ∧
    (0 ≤ (render_frame_vectorized t L x y).2.1 ∧
      (render_frame_vectorized t L x y).2.1 ≤ 255) ∧
    (0 ≤ (render_frame_vectorized t L x y).2.2.1 ∧
      (render_frame_vectorized t L x y).2.2.1 ≤ 255) ∧
    (0 ≤ (render_frame_vectorized t L x y).2.2.2 ∧
      (render_frame_vectorized t L x y).2.2.2 ≤ 255) := by
  have hmem := alphaOf_mem (distOf (uv_x x) (uv_y y))
  have key : (⌊alphaOf (distOf (uv_x x) (uv_y y)) * 255⌋ : ℤ) =
      quantize (alphaOf (distOf (uv_x x) (uv_y y))) := by
    rw [quantize, clip01_id hmem.1 hmem.2]
  refine ⟨?_, ?_, ?_, ?_, ?_⟩
  · rw [render_frame_vectorized, key]
  · exact ⟨quantize_nonneg _, quantize_le _⟩
  · exact ⟨quantize_nonneg _, quantize_le _⟩
  · exact ⟨quantize_nonneg _, quantize_le _⟩
  · simp only [render_frame_vectorized]
    rw [key]
    exact ⟨quantize_nonneg _, quantize_le _⟩

/-- Witness for `output_quantization` at `t = 0`, `loopDuration = 1`,
pixel `(0, 0)`. -/
theorem output_quantization_witness :
    (0:ℝ) < 1 ∧
    (0 ≤ (render_frame_vectorized 0 1 0 0).1 ∧
      (render_frame_vectorized 0 1 0 0).1 ≤ 255) :=
  ⟨by norm_num, (output_quantization 0 1 (by norm_num) 0 0).2.1⟩

/-- C3: Alpha falloff monotonicity for the smoothstep-with-extra-smoothing
policy: `alphaOf` is non-increasing on `[0,1]`, `alphaOf 0 = 1` (the
maximum), and `alphaOf d = 0` for every `d ≥ 1`. -/
theorem alpha_falloff :
    (∀ d1 d2 : ℝ, 0 ≤ d1 → d1 ≤ d2 → d2 ≤ 1 → alphaOf d2 ≤ alphaOf d1) ∧
    alphaOf 0 = 1 ∧ ∀ d : ℝ, 1 ≤ d → alphaOf d = 0 :=
  ⟨fun _ _ _ h _ => alphaOf_anti h, alphaOf_zero, fun _ h => alphaOf_of_one_le h⟩

/-- Witness for `alpha_falloff` at `d1 = 0`, `d2 = 1` and at `d = 2`. -/
theorem alpha_falloff_witness :
    ((0:ℝ) ≤ 0 ∧ (0:ℝ) ≤ 1 ∧ (1:ℝ) ≤ 1 ∧ alphaOf 1 ≤ alphaOf 0) ∧
    ((1:ℝ) ≤ 2 ∧ alphaOf 2 = 0) :=
  ⟨⟨le_rfl, by norm_num, le_rfl, alpha_falloff.1 0 1 le_rfl (by norm_num) le_rfl⟩,
   ⟨by norm_num, alpha_falloff.2.2 2 (by norm_num)⟩⟩

/-! ## Bounds on the noise fields, mix factors and color channels -/

lemma prod_pm_one {s c : ℝ} (hs1 : -1 ≤ s) (hs2 : s ≤ 1)
    (hc1 : -1 ≤ c) (hc2 : c ≤ 1) : -1 ≤ s * c ∧ s * c ≤ 1 := by
  constructor <;> nlinarith

lemma n1_mem (ux uy tm : ℝ) : -1 ≤ n1 ux uy tm ∧ n1 ux uy tm ≤ 1 := by
  unfold n1
  exact prod_pm_one (neg_one_le_sin _) (sin_le_one _) (neg_one_le_cos _) (cos_le_one _)

lemma n2_mem (ux uy tm : ℝ) : -1 ≤ n2 ux uy tm ∧ n2 ux uy tm ≤ 1 := by
  unfold n2
  exact prod_pm_one (neg_one_le_cos _) (cos_le_one _) (neg_one_le_sin _) (sin_le_one _)

lemma n3_mem (ux uy tm : ℝ) : -1 ≤ n3 ux uy tm ∧ n3 ux uy tm ≤ 1 :=
  ⟨neg_one_le_sin _, sin_le_one _⟩

lemma mix1_mem (ux uy tm : ℝ) : 0 ≤ mix1 ux uy tm ∧ mix1 ux uy tm ≤ 1 := by
  have h := n1_mem ux uy tm
  unfold mix1
  constructor <;> nlinarith [h.1, h.2]

lemma mix2_mem (ux uy tm : ℝ) : 0 ≤ mix2 ux uy tm ∧ mix2 ux uy tm ≤ 1 := by
  have h := n2_mem ux uy tm
  unfold mix2
  constructor <;> nlinarith [h.1, h.2]

lemma mix3_mem (ux uy tm : ℝ) : 0 ≤ mix3 ux uy tm ∧ mix3 ux uy tm ≤ 0.6 := by
  have h := n3_mem ux uy tm
  unfold mix3
  constructor <;> nlinarith [h.1, h.2]

lemma blendStep_mem {lo hi p c m : ℝ} (hp1 : lo ≤ p) (hp2 : p ≤ hi)
    (hc1 : lo ≤ c) (hc2 : c ≤ hi) (hm1 : 0 ≤ m) (hm2 : m ≤ 1) :
    lo ≤ blendStep p c m ∧ blendStep p c m ≤ hi := by
  unfold blendStep
  constructor
  · nlinarith [mul_nonneg (sub_nonneg.2 hp1) (sub_nonneg.2 hm2),
      mul_nonneg (sub_nonneg.2 hc1) hm1]
  · nlinarith [mul_nonneg (sub_nonneg.2 hp2) (sub_nonneg.2 hm2),
      mul_nonneg (sub_nonneg.2 hc2) hm1]

lemma c_mem : ∀ ch : Fin 3,
    (0.2 ≤ c1 ch ∧ c1 ch ≤ 1) ∧ (0.2 ≤ c2 ch ∧ c2 ch ≤ 1) ∧
    (0.2 ≤ c3 ch ∧ c3 ch ≤ 1) ∧ (0.2 ≤ c4 ch ∧ c4 ch ≤ 1) := by
  intro ch
  fin_cases ch <;> norm_num [c1, c2, c3, c4]

lemma colorCh_mem (ch : Fin 3) (ux uy tm : ℝ) :
    0.2 ≤ colorCh ch ux uy tm ∧ colorCh ch ux uy tm ≤ 1 := by
  have h1 := mix1_mem ux uy tm
  have h2 := mix2_mem ux uy tm
  have h3 := mix3_mem ux uy tm
  have hc := c_mem ch
  have s1 := blendStep_mem hc.1.1 hc.1.2 hc.2.1.1 hc.2.1.2 h1.1 h1.2
  have s2 := blendStep_mem s1.1 s1.2 hc.2.2.1.1 hc.2.2.1.2 h2.1 h2.2
  have s3 := blendStep_mem s2.1 s2.2 hc.2.2.2.1 hc.2.2.2.2 h3.1 (by linarith [h3.2])
  exact s3

end ColorCloud

namespace ColorCloud

open Real

/-- C10: implicit mix-factor bound: `mix1, mix2 ∈ [0,1]`, `mix3 ∈ [0,0.6]`,
the pre-quantization color is a convex combination of the four base
colors, each channel lies in `[0.2, 1]`, and the clamp to `[0,1]` before
quantization is a no-op. -/
theorem mix_bounds_convex : ∀ ux uy tm : ℝ,
    (0 ≤ mix1 ux uy tm ∧ mix1 ux uy tm ≤ 1) ∧
    (0 ≤ mix2 ux uy tm ∧ mix2 ux uy tm ≤ 1) ∧
    (0 ≤ mix3 ux uy tm ∧ mix3 ux uy tm ≤ 0.6) ∧
    (∃ w1 w2 w3 w4 : ℝ, 0 ≤ w1 ∧ 0 ≤ w2 ∧ 0 ≤ w3 ∧ 0 ≤ w4 ∧
      w1 + w2 + w3 + w4 = 1 ∧ ∀ ch : Fin 3,
        colorCh ch ux uy tm = w1 * c1 ch + w2 * c2 ch + w3 * c3 ch + w4 * c4 ch) ∧
    (∀ ch : Fin 3, 0.2 ≤ colorCh ch ux uy tm ∧ colorCh ch ux uy tm ≤ 1 ∧
      clip (colorCh ch ux uy tm) 0 1 = colorCh ch ux uy tm) := by
  intro ux uy tm
  have h1 := mix1_mem ux uy tm
  have h2 := mix2_mem ux uy tm
  have h3 := mix3_mem ux uy tm
  refine ⟨h1, h2, h3, ?_, ?_⟩
  · refine ⟨(1 - mix1 ux uy tm) * (1 - mix2 ux uy tm) * (1 - mix3 ux uy tm),
      mix1 ux uy tm * (1 - mix2 ux uy tm) * (1 - mix3 ux uy tm),
      mix2 ux uy tm * (1 - mix3 ux uy tm),
      mix3 ux uy tm, ?_, ?_, ?_, h3.1, by ring, ?_⟩
    · exact mul_nonneg (mul_nonneg (by linarith [h1.2]) (by linarith [h2.2]))
        (by linarith [h3.2])
    · exact mul_nonneg (mul_nonneg h1.1 (by linarith [h2.2])) (by linarith [h3.2])
    · exact mul_nonneg h2.1 (by linarith [h3.2])
    · intro ch
      simp only [colorCh, blendStep]
      ring
  · intro ch
    have hm := colorCh_mem ch ux uy tm
    exact ⟨hm.1, hm.2, clip01_id (by linarith [hm.1]) hm.2⟩

/-- C8: Noise and blend formula fidelity: the source-side color chain
(`colorCh`, built from the script's blending statements with no clamping
of the mix factors) equals the spec-side chain of three `lerp`s of the
four fixed base colors driven by the spec's noise formulas. -/
theorem noise_blend_fidelity : ∀ (ch : Fin 3) (ux uy tm : ℝ),
    colorCh ch ux uy tm = spec_color ch ux uy tm := by
  intro ch ux uy tm
  simp only [colorCh, spec_color, blendStep, spec_lerp, mix1, mix2, mix3,
    spec_mix1, spec_mix2, spec_mix3, n1, n2, n3, spec_n1, spec_n2, spec_n3,
    c1, c2, c3, c4, spec_c1, spec_c2, spec_c3, spec_c4]
  ring

/-- C9: Determinism: identical inputs give identical frames, and the
frame of the main loop is re-derivable from its index and the fixed
constants alone. -/
theorem render_deterministic :
    (∀ t₁ L₁ t₂ L₂ : ℝ, t₁ = t₂ → L₁ = L₂ →
      render_frame_vectorized t₁ L₁ = render_frame_vectorized t₂ L₂) ∧
    ∀ i : ℕ, mainFrame i =
      render_frame_vectorized ((i : ℝ) / (FPS : ℝ)) ((DURATION : ℕ) : ℝ) :=
  ⟨fun _ _ _ _ ht hL => by rw [ht, hL], fun _ => rfl⟩

/-- Witness for `render_deterministic` at `t = 0`, `loopDuration = 1`. -/
theorem render_deterministic_witness :
    render_frame_vectorized 0 1 = render_frame_vectorized 0 1 :=
  render_deterministic.1 0 1 0 1 rfl rfl

/-- C7 counterexample: at pixel row `y = 0` the flipped vertical
coordinate is exactly 1, so it does not lie in `[0,1)`. -/
theorem uv_range_counterexample : uv_y 0 = 1 ∧ ¬ uv_y 0 < 1 := by
  constructor <;> norm_num [uv_y]

/-- C7 amended: for pixels inside the frame, `uv_x ∈ [0,1)` while the
flipped vertical coordinate satisfies `uv_y ∈ (0,1]`. -/
theorem uv_range_amended (x y : ℕ) (hx : x < WIDTH) (hy : y < HEIGHT) :
    (0 ≤ uv_x x ∧ uv_x x < 1) ∧ (0 < uv_y y ∧ uv_y y ≤ 1) := by
  have hx' : (x : ℝ) < 512 := by exact_mod_cast (hx : x < 512)
  have hy' : (y : ℝ) < 512 := by exact_mod_cast (hy : y < 512)
  have hx0 : (0:ℝ) ≤ (x : ℝ) := Nat.cast_nonneg x
  have hy0 : (0:ℝ) ≤ (y : ℝ) := Nat.cast_nonneg y
  have hylt : (y:ℝ) / 512 < 1 := by
    rw [div_lt_one (by norm_num)]
    exact hy'
  have hyge : 0 ≤ (y:ℝ) / 512 := by positivity
  unfold uv_x uv_y WIDTH HEIGHT
  push_cast
  refine ⟨⟨by positivity, ?_⟩, by linarith, by linarith⟩
  rw [div_lt_one (by norm_num)]
  exact hx'

/-- Witness for `uv_range_amended` at pixel `(0, 0)`. -/
theorem uv_range_amended_witness :
    (0 < WIDTH ∧ 0 < HEIGHT) ∧
    (0 ≤ uv_x 0 ∧ uv_x 0 < 1) ∧ (0 < uv_y 0 ∧ uv_y 0 ≤ 1) :=
  ⟨⟨by norm_num [WIDTH], by norm_num [HEIGHT]⟩,
   uv_range_amended 0 0 (by norm_num [WIDTH]) (by norm_num [HEIGHT])⟩

/-- C6: the code performs no precondition validation: calling the
synthesizer with `loop_duration = -1` (a violation of the documented
precondition `loopDuration > 0`) silently succeeds, and the assembler
with `cols = 0` dies with a bare `ZeroDivisionError`, not a descriptive
precondition error. -/
theorem no_precondition_check :
    render_frame_checked 0 (-1) = Except.ok (render_frame_vectorized 0 (-1)) ∧
    create_sprite_sheet_checked [] 0 = Except.error "ZeroDivisionError" := by
  constructor
  · rw [render_frame_checked, if_neg (by norm_num : ¬ (-1 : ℝ) = 0)]
  · rfl

end ColorCloud

namespace ColorCloud

open Real

/-- C1 is false on the code: the loop phase advances by `2π/0.3 = 20π/3`
over one loop, which is not a multiple of `2π`.  At pixel `(0, 0)`
(`uv = (0, 1)`) the first noise field `n1` is `0` at `t = 0` but exceeds
`1/2` at `t = loopDuration`, so the first and last rendered instants are
not phase-identical (far beyond any floating-point tolerance). -/
theorem loop_not_exact :
    n1 (uv_x 0) (uv_y 0) (timeOf 0 ((DURATION : ℕ) : ℝ)) = 0 ∧
    1 / 2 < n1 (uv_x 0) (uv_y 0) (timeOf ((DURATION : ℕ) : ℝ) ((DURATION : ℕ) : ℝ)) := by
  have hx : uv_x 0 = 0 := by norm_num [uv_x]
  have hy : uv_y 0 = 1 := by norm_num [uv_y]
  constructor
  · rw [hx, hy]
    norm_num [n1, timeOf]
  · have h10 : ((DURATION : ℕ) : ℝ) = 10 := by norm_num [DURATION]
    have hT : timeOf ((DURATION : ℕ) : ℝ) ((DURATION : ℕ) : ℝ) = 20 * π / 3 := by
      rw [timeOf, h10, show (0.3:ℝ) = 3 / 10 by norm_num]
      ring
    rw [hx, hy, hT, n1]
    have e1 : (0:ℝ) * 3 + 20 * π / 3 = 2 * π / 3 + ((3:ℤ) : ℝ) * (2 * π) := by
      push_cast
      ring
    have e2 : (1:ℝ) * 2 - 20 * π / 3 * 0.7 =
        (2 - 2 * π / 3) + ((-2:ℤ) : ℝ) * (2 * π) := by
      push_cast
      rw [show (0.7:ℝ) = 7 / 10 by norm_num]
      ring
    rw [e1, Real.sin_add_int_mul_two_pi, e2, Real.cos_add_int_mul_two_pi]
    have hpi1 : (3:ℝ) < π := Real.pi_gt_three
    have hpi2 : π < 3.15 := Real.pi_lt_315
    have hsin : sin (2 * π / 3) = Real.sqrt 3 / 2 := by
      rw [show (2:ℝ) * π / 3 = π - π / 3 by ring, Real.sin_pi_sub,
        Real.sin_pi_div_three]
    have hsqrt3 : (1.6:ℝ) ≤ Real.sqrt 3 := by
      nlinarith [Real.sq_sqrt (show (0:ℝ) ≤ 3 by norm_num), Real.sqrt_nonneg 3]
    have hsin' : (0.8:ℝ) ≤ sin (2 * π / 3) := by
      rw [hsin]
      linarith
    have hu1 : (0:ℝ) ≤ 2 * π / 3 - 2 := by linarith
    have hu2 : 2 * π / 3 - 2 ≤ 0.1 := by linarith
    have hcos : (0.995:ℝ) ≤ cos (2 - 2 * π / 3) := by
      have hb := Real.one_sub_sq_div_two_le_cos (x := 2 - 2 * π / 3)
      nlinarith [hb, hu2, mul_nonneg hu1 (by linarith : (0:ℝ) ≤ 0.1 - (2 * π / 3 - 2))]
    nlinarith [hsin', hcos, Real.sin_le_one (2 * π / 3),
      Real.cos_le_one (2 - 2 * π / 3),
      mul_nonneg (by linarith : (0:ℝ) ≤ sin (2 * π / 3) - 0.8)
        (by linarith : (0:ℝ) ≤ cos (2 - 2 * π / 3) - 0.995)]

end ColorCloud

namespace ColorCloud

/-! ## Sheet assembler lemmas -/

lemma tile_coord_inj {a b d w : ℕ} (hd : d < w) (h1 : a * w ≤ b * w + d)
    (h2 : b * w + d < a * w + w) : a = b := by
  have hlt1 : b * w < (a + 1) * w :=
    lt_of_le_of_lt (Nat.le_add_right _ d) (by rw [add_mul, one_mul]; exact h2)
  have hba : b ≤ a := Nat.lt_succ_iff.1 (lt_of_mul_lt_mul_right hlt1 (Nat.zero_le w))
  have hlt2 : a * w < (b + 1) * w :=
    lt_of_le_of_lt h1 (by rw [add_mul, one_mul]; exact Nat.add_lt_add_left hd _)
  have hab : a ≤ b := Nat.lt_succ_iff.1 (lt_of_mul_lt_mul_right hlt2 (Nat.zero_le w))
  exact le_antisymm hab hba

lemma tile_eq_of_rect {cols j k dx dy : ℕ} (hdx : dx < WIDTH) (hdy : dy < HEIGHT)
    (h : inRect cols j (k % cols * WIDTH + dx) (k / cols * HEIGHT + dy)) :
    j = k := by
  obtain ⟨h1, h2, h3, h4⟩ := h
  have hcol : j % cols = k % cols := tile_coord_inj hdx h1 h2
  have hrow : j / cols = k / cols := tile_coord_inj hdy h3 h4
  calc j = cols * (j / cols) + j % cols := (Nat.div_add_mod j cols).symm
    _ = cols * (k / cols) + k % cols := by rw [hcol, hrow]
    _ = k := Nat.div_add_mod k cols

lemma pasteFrom_of_notRect (cols : ℕ) (fs : List Frame) :
    ∀ (k : ℕ) (s : SheetFun) (px py : ℕ),
      (∀ m, m < fs.length → ¬ inRect cols (k + m) px py) →
      pasteFrom cols k fs s px py = s px py := by
  induction fs with
  | nil => intro k s px py _; rfl
  | cons f fs ih =>
    intro k s px py h
    show pasteFrom cols (k + 1) fs
      (paste s f (k % cols * WIDTH) (k / cols * HEIGHT)) px py = s px py
    rw [ih (k + 1) _ px py ?_]
    · rw [paste, if_neg]
      exact fun hc => h 0 (Nat.succ_pos _) hc
    · intro m hm hrect
      have e : k + 1 + m = k + (m + 1) := by omega
      rw [e] at hrect
      exact h (m + 1) (by simpa using Nat.succ_lt_succ hm) hrect

lemma pasteFrom_get (cols : ℕ) (fs : List Frame) :
    ∀ (k m : ℕ) (hm : m < fs.length) (s : SheetFun) (dx dy : ℕ),
      dx < WIDTH → dy < HEIGHT →
      pasteFrom cols k fs s ((k + m) % cols * WIDTH + dx)
        ((k + m) / cols * HEIGHT + dy) = fs.get ⟨m, hm⟩ dx dy := by
  induction fs with
  | nil => intro k m hm; exact absurd hm (Nat.not_lt_zero m)
  | cons f fs ih =>
    intro k m hm s dx dy hdx hdy
    match m with
    | 0 =>
      show pasteFrom cols (k + 1) fs
        (paste s f (k % cols * WIDTH) (k / cols * HEIGHT))
        (k % cols * WIDTH + dx) (k / cols * HEIGHT + dy) = f dx dy
      rw [pasteFrom_of_notRect cols fs (k + 1) _ _ _ ?_]
      · rw [paste, if_pos]
        · rw [Nat.add_sub_cancel_left, Nat.add_sub_cancel_left]
        · exact ⟨Nat.le_add_right _ _, Nat.add_lt_add_left hdx _,
            Nat.le_add_right _ _, Nat.add_lt_add_left hdy _⟩
      · intro m' hm' hrect
        have : k + 1 + m' = k := tile_eq_of_rect hdx hdy hrect
        omega
    | Nat.succ m' =>
      have hm'' : m' < fs.length := Nat.lt_of_succ_lt_succ hm
      have e : k + (m' + 1) = k + 1 + m' := by omega
      rw [e]
      exact ih (k + 1) m' hm'' _ dx dy hdx hdy

/-- C4: Sheet tile placement: for every frame list and column count
`C ≥ 1`, the assembled sheet holds frame `i`'s pixels at offset
`((i mod C) * WIDTH, (i div C) * HEIGHT)` in sequence order, every tile
slot at index `j ≥ N` is fully transparent, and for `i = 25`, `C = 8`
the tile lands at `(row, col) = (3, 1)`. -/
theorem sheet_tile_placement :
    (∀ (frames : List Frame) (cols : ℕ), 1 ≤ cols →
      ∀ (i : ℕ) (hi : i < frames.length) (dx dy : ℕ), dx < WIDTH → dy < HEIGHT →
        create_sprite_sheet frames cols (i % cols * WIDTH + dx)
          (i / cols * HEIGHT + dy) = frames.get ⟨i, hi⟩ dx dy) ∧
    (∀ (frames : List Frame) (cols : ℕ), 1 ≤ cols →
      ∀ j : ℕ, frames.length ≤ j → ∀ dx dy : ℕ, dx < WIDTH → dy < HEIGHT →
        create_sprite_sheet frames cols (j % cols * WIDTH + dx)
          (j / cols * HEIGHT + dy) = (0, 0, 0, 0)) ∧
    25 / 8 = 3 ∧ 25 % 8 = 1 := by
  refine ⟨?_, ?_, by norm_num, by norm_num⟩
  · intro frames cols _ i hi dx dy hdx hdy
    have h := pasteFrom_get cols frames 0 i hi blankSheet dx dy hdx hdy
    simpa using h
  · intro frames cols _ j hj dx dy hdx hdy
    rw [create_sprite_sheet, pasteFrom_of_notRect cols frames 0 _ _ _ ?_]
    · rfl
    · intro m hm hrect
      have : 0 + m = j := tile_eq_of_rect hdx hdy hrect
      omega

/-- Witness for `sheet_tile_placement`: 26 constant frames, 8 columns;
tile 25 carries the frame's pixel, tile slot 26 is transparent. -/
theorem sheet_tile_placement_witness :
    ((1:ℕ) ≤ 8 ∧ (0:ℕ) < WIDTH ∧ (0:ℕ) < HEIGHT) ∧
    create_sprite_sheet (List.replicate 26 (fun _ _ => ((7, 7, 7, 7) : RGBA))) 8
      (25 % 8 * WIDTH + 0) (25 / 8 * HEIGHT + 0) = (7, 7, 7, 7) ∧
    create_sprite_sheet (List.replicate 26 (fun _ _ => ((7, 7, 7, 7) : RGBA))) 8
      (26 % 8 * WIDTH + 0) (26 / 8 * HEIGHT + 0) = (0, 0, 0, 0) := by
  refine ⟨⟨by norm_num, by norm_num [WIDTH], by norm_num [HEIGHT]⟩, ?_, ?_⟩
  · have h := sheet_tile_placement.1
      (List.replicate 26 (fun _ _ => ((7, 7, 7, 7) : RGBA))) 8 (by norm_num)
      25 (by simp) 0 0 (by norm_num [WIDTH]) (by norm_num [HEIGHT])
    simpa using h
  · exact sheet_tile_placement.2.1
      (List.replicate 26 (fun _ _ => ((7, 7, 7, 7) : RGBA))) 8 (by norm_num)
      26 (by simp) 0 0 (by norm_num [WIDTH]) (by norm_num [HEIGHT])

end ColorCloud

namespace ColorCloud

lemma rowsOf_eq (n cols : ℕ) (hc : 1 ≤ cols) :
    rowsOf n cols = (n + cols - 1) / cols := by
  obtain ⟨c, rfl⟩ : ∃ c, cols = c + 1 := ⟨cols - 1, by omega⟩
  have hq : n + (c + 1) - 1 = n + c := by omega
  unfold rowsOf
  rw [hq]
  set q := (n + c) / (c + 1) with hqdef
  set r := (n + c) % (c + 1) with hrdef
  have hdm : (c + 1) * q + r = n + c := Nat.div_add_mod (n + c) (c + 1)
  have hrlt : r < c + 1 := Nat.mod_lt _ (Nat.succ_pos c)
  have hcast : ((c:ℚ) + 1) * q + r = n + c := by exact_mod_cast hdm
  have hrle : (r:ℚ) ≤ c := by exact_mod_cast Nat.lt_succ_iff.1 hrlt
  have hr0 : (0:ℚ) ≤ r := Nat.cast_nonneg r
  have hcpos : (0:ℚ) < (c:ℚ) + 1 := by positivity
  have hceil : ⌈(n : ℚ) / ((c:ℚ) + 1)⌉ = (q : ℤ) := by
    rw [Int.ceil_eq_iff]
    constructor
    · rw [lt_div_iff hcpos]
      push_cast
      linarith [hcast, hrle, hr0]
    · rw [div_le_iff hcpos]
      push_cast
      linarith [hcast, hr0]
  rw [show (((c + 1 : ℕ)):ℚ) = (c:ℚ) + 1 by push_cast; ring, hceil]
  simp

/-- C5: Sheet dimensions: `rows = ceil(N / C) = (N + C - 1) div C`, the
sheet is `(WIDTH*C) × (HEIGHT*rows)`, and for the repository constants
(`TOTAL_FRAMES = 120`, `columns = 12`) the sheet is `6144 × 5120` with
10 rows. -/
theorem sheet_dimensions :
    (∀ n cols : ℕ, 1 ≤ n → 1 ≤ cols →
      rowsOf n cols = (n + cols - 1) / cols ∧
      sheet_width cols = WIDTH * cols ∧
      sheet_height n cols = HEIGHT * rowsOf n cols) ∧
    TOTAL_FRAMES = 120 ∧ rowsOf TOTAL_FRAMES 12 = 10 ∧
    sheet_width 12 = 6144 ∧ sheet_height TOTAL_FRAMES 12 = 5120 := by
  have h120 : TOTAL_FRAMES = 120 := rfl
  have hrows : rowsOf 120 12 = 10 := by
    rw [rowsOf_eq 120 12 (by norm_num)]
  refine ⟨?_, h120, ?_, by norm_num [sheet_width, WIDTH], ?_⟩
  · intro n cols _ hc
    exact ⟨rowsOf_eq n cols hc, rfl, rfl⟩
  · rw [h120]
    exact hrows
  · rw [sheet_height, h120, hrows]
    norm_num [HEIGHT]

/-- Witness for `sheet_dimensions` at `N = 26`, `C = 8`. -/
theorem sheet_dimensions_witness :
    ((1:ℕ) ≤ 26 ∧ (1:ℕ) ≤ 8) ∧
    (rowsOf 26 8 = (26 + 8 - 1) / 8 ∧ sheet_width 8 = WIDTH * 8 ∧
      sheet_height 26 8 = HEIGHT * rowsOf 26 8) :=
  ⟨⟨by norm_num, by norm_num⟩, sheet_dimensions.1 26 8 (by norm_num) (by norm_num)⟩

end ColorCloud
